import Mathlib

/-!
Verification of the license-key service in `app.py`.

The application stores license records in a `licenses` table and exposes
a validation endpoint plus administrative endpoints (add, revoke,
reinstate, modify, mass add, generate).  We embed the table as a list of
records, timestamps as integers, and each route as a pure function from
the store (plus its request parameters and the current time) to a
response together with the updated store.
-/

/-- Modelled from the spec: the `licenses` table schema file is not part of
the repository.  The columns `key`, `revoked`, `valid_for_days`,
`creation_date` and `used_on_device` are exactly those referenced by the
SQL statements in `app.py`; the field `issuance_date` and the insert
defaults (`revoked = false`, `creation_date = now`, no binding) follow the
data model of the spec, since no SQL statement in `app.py` mentions them. -/
structure LicenseRecord where
  key : String
  revoked : Bool
  valid_for_days : Int
  creation_date : Int
  used_on_device : Option String
  issuance_date : Option Int
deriving DecidableEq

/-- Modelled from the spec: the freshly inserted row.  `app.py` inserts only
`(key, valid_for_days)`; the remaining columns take the schema defaults,
which per the lifecycle section of the spec are `revoked = false`, `creationDate = now`
and no binding.  No statement in `app.py` ever writes `issuance_date`, so
it defaults to absent. -/
def mkLicense (key : String) (days now : Int) : LicenseRecord :=
  { key := key, revoked := false, valid_for_days := days,
    creation_date := now, used_on_device := none, issuance_date := none }

/-- The `licenses` table: a list of rows. -/
abbrev Store := List LicenseRecord

/-- Python truthiness of the `used_on_device` value: SQL `NULL` (here
`none`) and the empty string are falsy, every other string is truthy. -/
def truthyStr : Option String → Bool
  | none => false
  | some s => s != ""

/-- `SELECT * FROM licenses WHERE key = %s` followed by `fetchone()`. -/
def findLicense (store : Store) (key : String) : Option LicenseRecord :=
  List.find? (fun r => r.key == key) store

/-- `UPDATE licenses SET used_on_device = %s WHERE key = %s`. -/
def bindDevice (store : Store) (key device_id : String) : Store :=
  List.map (fun r => if r.key == key then { r with used_on_device := some device_id } else r) store

/-- Outcomes of the `/validate_license` route, one per `return` statement. -/
inductive VResult where
  | badRequest
  | notFound
  | revokedKey
  | deviceMismatch
  | expired
  | valid
deriving DecidableEq

/-- The Python guard on the fetched row: `used_on_device` is truthy and
differs from `device_id`. -/
def mismatchCond (r : LicenseRecord) (device_id : String) : Bool :=
  truthyStr r.used_on_device && (r.used_on_device.getD "" != device_id)

/-- The body of `validate_license` after `fetchone()`: the decision is made
from the fetched `snapshot`, while the `UPDATE` of the first-use branch is
executed against the current table contents `current` (the SQL update is
unconditional, keyed only on `key`). -/
def reqFinish (current : Store) (snapshot : Option LicenseRecord)
    (key device_id : String) (now : Int) : VResult × Store :=
  match snapshot with
  | none => (VResult.notFound, current)
  | some r =>
    if r.revoked then (VResult.revokedKey, current)
    else if mismatchCond r device_id then
      (VResult.deviceMismatch, current)
    else if now > r.creation_date + r.valid_for_days then
      (VResult.expired, current)
    else if !truthyStr r.used_on_device then
      (VResult.valid, bindDevice current key device_id)
    else
      (VResult.valid, current)

/-- The `/validate_license` route: missing `key` or `device_id` is rejected
up front, then the record is fetched and `reqFinish` runs on it. -/
def validate_license (store : Store) (key device_id : String) (now : Int) :
    VResult × Store :=
  if key == "" || device_id == "" then (VResult.badRequest, store)
  else reqFinish store (findLicense store key) key device_id now

/-- An HTTP response of the admin routes: status code and location. -/
abbrev AdminResp := Nat × String

/-- The `redirect` to `/admin`, the response every admin route returns. -/
def redirectAdmin : AdminResp := (302, "/admin")

/-- `INSERT INTO licenses (key, valid_for_days) VALUES (%s, %s)`: the table
has a unique constraint on `key`, so inserting an existing key raises a
`psycopg2.Error` (a unique violation); otherwise the row is appended with
the schema defaults. -/
def insert_license (store : Store) (key : String) (days now : Int) :
    Except Unit Store :=
  if List.any store (fun r => r.key == key) then Except.error ()
  else Except.ok (store ++ ([mkLicense key days now] : Store))

/-- The `/add_key` route: attempts the insert; a database error is caught,
the transaction rolled back and discarded; either way the route responds
with the `redirect` to `/admin`. -/
def add_key (store : Store) (key : String) (days now : Int) :
    AdminResp × Store :=
  match insert_license store key days now with
  | Except.error _ => (redirectAdmin, store)
  | Except.ok s2 => (redirectAdmin, s2)

/-- The `/revoke_key` route:
`UPDATE licenses SET revoked = TRUE WHERE key = %s`, then redirect.
A key matching no row updates nothing and still succeeds. -/
def revoke_key (store : Store) (key : String) : AdminResp × Store :=
  (redirectAdmin,
    List.map (fun r => if r.key == key then { r with revoked := true } else r) store)

/-- The `/reinstate_key` route:
`UPDATE licenses SET revoked = FALSE WHERE key = %s`, then redirect. -/
def reinstate_key (store : Store) (key : String) : AdminResp × Store :=
  (redirectAdmin,
    List.map (fun r => if r.key == key then { r with revoked := false } else r) store)

/-- The `/modify_key` route:
`UPDATE licenses SET valid_for_days = %s WHERE key = %s`, then redirect. -/
def modify_key (store : Store) (key : String) (days : Int) : AdminResp × Store :=
  (redirectAdmin,
    List.map (fun r => if r.key == key then { r with valid_for_days := days } else r) store)

/-- The bulk insert of `/mass_add_keys`:
`INSERT ... VALUES %s ON CONFLICT (key) DO NOTHING` over the parsed key
list — each row is inserted only if its key is not yet present (this also
skips duplicates within the input batch). -/
def mass_add_keys (store : Store) (keys : List String) (days now : Int) :
    AdminResp × Store :=
  (redirectAdmin,
    List.foldl
      (fun s k =>
        if List.any s (fun r => r.key == k) then s
        else s ++ ([mkLicense k days now] : Store))
      store keys)

/-- The alphabet of `generate_key`:
`string.ascii_uppercase + string.digits`. -/
def keyAlphabet : List Char :=
  ['A', 'B', 'C', 'D', 'E', 'F', 'G', 'H', 'I', 'J', 'K', 'L', 'M',
   'N', 'O', 'P', 'Q', 'R', 'S', 'T', 'U', 'V', 'W', 'X', 'Y', 'Z',
   '0', '1', '2', '3', '4', '5', '6', '7', '8', '9']

/-- One draw of `secrets.choice(alphabet)`: the random source is modelled
as a stream `f` of indices into the 36-character alphabet. -/
def keyChar (f : Nat → Fin 36) (n : Nat) : Char :=
  List.get keyAlphabet ⟨(f n).val, (f n).isLt⟩

/-- One 4-character group of a candidate key, drawn from the stream
starting at position `pos`. -/
def keyPart (f : Nat → Fin 36) (pos : Nat) : String :=
  String.mk (List.map (fun i => keyChar f (pos + i)) (List.range 4))

/-- One candidate key: 3 groups of 4 characters joined by `'-'`
(`'-'.join(key_parts)` with `parts=3`, `part_length=4`), consuming 12
stream positions starting at `pos`. -/
def buildKey (f : Nat → Fin 36) (pos : Nat) : String :=
  keyPart f pos ++ "-" ++ keyPart f (pos + 4) ++ "-" ++ keyPart f (pos + 8)

/-- `generate_key`: draw a candidate, check
`SELECT 1 FROM licenses WHERE key = %s`, and retry on a collision.  The
`while True` loop is given explicit `fuel`; `none` models non-termination
within the fuel.  On success it returns the key and the next unused
stream position. -/
def generate_key (store : Store) (f : Nat → Fin 36) :
    Nat → Nat → Option (String × Nat)
  | _, 0 => none
  | pos, fuel + 1 =>
    if List.any store (fun r => r.key == buildKey f pos) then
      generate_key store f (pos + 12) fuel
    else some (buildKey f pos, pos + 12)

/-- `keys_to_add.add(...)`: a Python `set`, modelled as a duplicate-free
list in insertion order. -/
def setInsert (acc : List String) (k : String) : List String :=
  if k ∈ acc then acc else acc ++ [k]

/-- The generation loop of `/generate_keys`:
`for _ in range(quantity): keys_to_add.add(generate_key(cursor))`.
The store is not modified during the loop, so every candidate is checked
against the same table contents. -/
def genLoop (store : Store) (f : Nat → Fin 36) (fuel : Nat) :
    Nat → Nat → List String → Option (List String)
  | 0, _, acc => some acc
  | q + 1, pos, acc =>
    match generate_key store f pos fuel with
    | none => none
    | some (k, pos2) => genLoop store f fuel q pos2 (setInsert acc k)

/-- The `/generate_keys` route: run the generation loop, then — if any key
was produced — bulk-insert the batch (`INSERT INTO licenses ... VALUES %s`,
no conflict clause) and redirect. -/
def generate_keys (store : Store) (quantity : Nat) (days now : Int)
    (f : Nat → Fin 36) (fuel : Nat) : Option (AdminResp × Store) :=
  match genLoop store f fuel quantity 0 [] with
  | none => none
  | some keys =>
    if keys = [] then some (redirectAdmin, store)
    else
      some (redirectAdmin,
        store ++ (List.map (fun k => mkLicense k days now) keys : Store))

/-- State of two concurrent `/validate_license` requests A and B on the
same key: the current table contents, the fetched snapshot of each request
(`none` while its `SELECT` has not run), and the response of each request. -/
structure RaceState where
  store : Store
  aSnap : Option (Option LicenseRecord)
  bSnap : Option (Option LicenseRecord)
  aRes : Option VResult
  bRes : Option VResult
deriving DecidableEq

/-- One scheduler step of the race: the chosen request (`true` = A) runs
its next database interaction — first the `SELECT ... fetchone()`, then
the rest of the handler (`reqFinish`), whose conditional `UPDATE` applies
to the table as it is *now*, while its decision uses the earlier
snapshot. -/
def raceStep (key dA dB : String) (now : Int) (st : RaceState) (who : Bool) :
    RaceState :=
  if who then
    match st.aSnap, st.aRes with
    | none, _ => { st with aSnap := some (findLicense st.store key) }
    | some snap, none =>
      let p := reqFinish st.store snap key dA now
      { st with store := p.2, aRes := some p.1 }
    | some _, some _ => st
  else
    match st.bSnap, st.bRes with
    | none, _ => { st with bSnap := some (findLicense st.store key) }
    | some snap, none =>
      let p := reqFinish st.store snap key dB now
      { st with store := p.2, bRes := some p.1 }
    | some _, some _ => st

/-- Run the two racing requests under a given interleaving `sched`. -/
def runRace (store : Store) (key dA dB : String) (now : Int)
    (sched : List Bool) : RaceState :=
  List.foldl (raceStep key dA dB now)
    { store := store, aSnap := none, bSnap := none, aRes := none, bRes := none }
    sched

/-- Store states reachable from the empty table through the routes of
`app.py`. -/
inductive Reachable : Store → Prop where
  | init : Reachable ({} : Store)
  | validate (s : Store) (key device_id : String) (now : Int) :
      Reachable s → Reachable (validate_license s key device_id now).2
  | add (s : Store) (key : String) (days now : Int) :
      Reachable s → Reachable (add_key s key days now).2
  | revoke (s : Store) (key : String) :
      Reachable s → Reachable (revoke_key s key).2
  | reinstate (s : Store) (key : String) :
      Reachable s → Reachable (reinstate_key s key).2
  | modify (s : Store) (key : String) (days : Int) :
      Reachable s → Reachable (modify_key s key days).2
  | massAdd (s : Store) (keys : List String) (days now : Int) :
      Reachable s → Reachable (mass_add_keys s keys days now).2
  | generate (s s2 : Store) (quantity : Nat) (days now : Int)
      (f : Nat → Fin 36) (fuel : Nat) (resp : AdminResp) :
      Reachable s → generate_keys s quantity days now f fuel = some (resp, s2) →
      Reachable s2

/-- The `XXXX-XXXX-XXXX` shape as a predicate on character lists: three
groups of four alphabet characters separated by dashes. -/
def keyFormatList : List Char → Prop
  | [a, b, c, d, s1, e, g, h, i, s2, j, k, l, m] =>
    s1 = '-' ∧ s2 = '-' ∧
      ∀ x ∈ [a, b, c, d, e, g, h, i, j, k, l, m], x ∈ keyAlphabet
  | _ => False

instance : DecidablePred keyFormatList := by
  intro l
  unfold keyFormatList
  split <;> infer_instance

/-- A string is a well-formed key when its characters follow the
`XXXX-XXXX-XXXX` shape. -/
def isValidKeyFormat (s : String) : Prop :=
  keyFormatList s.data

instance (s : String) : Decidable (isValidKeyFormat s) :=
  inferInstanceAs (Decidable (keyFormatList s.data))

/-! ## Helper lemmas -/

theorem validate_of_found (store : Store) (key device_id : String) (now : Int)
    (hk : key ≠ "") (hd : device_id ≠ "") :
    validate_license store key device_id now =
      reqFinish store (findLicense store key) key device_id now := by
  have hk2 : (key == "") = false := beq_eq_false_iff_ne.mpr hk
  have hd2 : (device_id == "") = false := beq_eq_false_iff_ne.mpr hd
  unfold validate_license
  rw [hk2, hd2]
  simp

/-! ## Claim theorems -/

/-- C1, counterexample: an UNBOUND record (`used_on_device = NULL`,
created at time 0 with a 1-day window) is reported `Expired` at
`now = 100`, contradicting the claim that an unbound record never yields
`Expired`. -/
theorem unbound_record_reports_expired :
    validate_license ([mkLicense "K" 1 0] : Store) "K" "dev2" 100 =
      (VResult.expired, ([mkLicense "K" 1 0] : Store)) := by
  decide

/-- C1, amended: once the request is well-formed, the record exists, is
not revoked and does not mismatch the device, the `Expired` outcome
occurs exactly when `now > creationDate + validForDays` — the expiration
clock starts at creation, not at first use, so binding is irrelevant to
expiry. -/
theorem expired_iff_now_past_creation_window
    (store : Store) (key device_id : String) (now : Int) (r : LicenseRecord)
    (hk : key ≠ "") (hd : device_id ≠ "")
    (hfind : findLicense store key = some r)
    (hrev : r.revoked = false)
    (hmm : mismatchCond r device_id = false) :
    (validate_license store key device_id now).1 = VResult.expired ↔
      now > r.creation_date + r.valid_for_days := by
  rw [validate_of_found store key device_id now hk hd, hfind]
  simp only [reqFinish, hrev, hmm, Bool.false_eq_true, if_false]
  by_cases h : now > r.creation_date + r.valid_for_days
  · simp [h]
  · simp only [if_neg h, Bool.false_eq_true, if_false]
    constructor
    · intro hcontra
      by_cases hb : !truthyStr r.used_on_device
      · rw [if_pos hb] at hcontra
        exact absurd hcontra (by simp)
      · rw [if_neg hb] at hcontra
        exact absurd hcontra (by simp)
    · intro hcontra
      exact absurd hcontra h

/-- C1, witness for the amended theorem: a bound, unrevoked record created
at 0 with a 1-day window is `Expired` at `now = 100`. -/
theorem expired_iff_now_past_creation_window_witness :
    (validate_license
        ([{ mkLicense "K" 1 0 with used_on_device := some "dev1" }] : Store)
        "K" "dev1" 100).1 = VResult.expired :=
  (expired_iff_now_past_creation_window
      ([{ mkLicense "K" 1 0 with used_on_device := some "dev1" }] : Store)
      "K" "dev1" 100 { mkLicense "K" 1 0 with used_on_device := some "dev1" }
      (by decide) (by decide) (by decide) (by decide) (by decide)).mpr
    (by decide)

/-- C2, counterexample: a record bound to `dev1`, already expired
(created at 0, 1-day window, `now = 100`), queried by `dev2`, is reported
`DeviceMismatch`, not `Expired` — the device check runs before the
expiry check, contradicting the claimed
not-found → revoked → expired → mismatch order. -/
theorem expired_mismatched_record_reports_mismatch :
    validate_license
        ([{ mkLicense "K" 1 0 with used_on_device := some "dev1" }] : Store)
        "K" "dev2" 100 =
      (VResult.deviceMismatch,
        ([{ mkLicense "K" 1 0 with used_on_device := some "dev1" }] : Store)) := by
  decide

/-- C2, amended: the checks run in the fixed order
not-found → revoked → device mismatch → expired → grant.  A
revoked-and-expired key still reports `Revoked`, but a record that is
both expired and bound to a different device reports `DeviceMismatch`,
not `Expired`. -/
theorem validate_check_order
    (store : Store) (key device_id : String) (now : Int)
    (hk : key ≠ "") (hd : device_id ≠ "") :
    (findLicense store key = none →
      (validate_license store key device_id now).1 = VResult.notFound) ∧
    ∀ r, findLicense store key = some r →
      (r.revoked = true →
        (validate_license store key device_id now).1 = VResult.revokedKey) ∧
      (r.revoked = false → mismatchCond r device_id = true →
        (validate_license store key device_id now).1 = VResult.deviceMismatch) ∧
      (r.revoked = false → mismatchCond r device_id = false →
        now > r.creation_date + r.valid_for_days →
        (validate_license store key device_id now).1 = VResult.expired) ∧
      (r.revoked = false → mismatchCond r device_id = false →
        ¬ now > r.creation_date + r.valid_for_days →
        (validate_license store key device_id now).1 = VResult.valid) := by
  rw [validate_of_found store key device_id now hk hd]
  constructor
  · intro hnone
    rw [hnone]
    simp [reqFinish]
  · intro r hsome
    rw [hsome]
    refine ⟨fun hrev => by simp [reqFinish, hrev], fun hrev hmm => ?_,
      fun hrev hmm hexp => ?_, fun hrev hmm hexp => ?_⟩
  
    · simp [reqFinish, hrev, hmm]
    · simp [reqFinish, hrev, hmm, hexp]
    · simp only [reqFinish, hrev, hmm, Bool.false_eq_true, if_false, if_neg hexp]
      by_cases hb : !truthyStr r.used_on_device
      · rw [if_pos hb]
      · rw [if_neg hb]

/-- C2, witness for the amended theorem: a revoked and expired record
reports `Revoked`. -/
theorem validate_check_order_witness :
    (validate_license
        ([{ mkLicense "K" 1 0 with revoked := true }] : Store)
        "K" "dev1" 100).1 = VResult.revokedKey :=
  ((validate_check_order ([{ mkLicense "K" 1 0 with revoked := true }] : Store)
        "K" "dev1" 100 (by decide) (by decide)).2
      { mkLicense "K" 1 0 with revoked := true } (by decide)).1 (by decide)

theorem find?_lic_cons (p : LicenseRecord → Bool) (r : LicenseRecord)
    (t : List LicenseRecord) :
    List.find? p (r :: t) = if p r then some r else List.find? p t := by
  rw [List.find?_cons]
  cases p r <;> simp

theorem findLicense_bindDevice (store : Store) (key dev : String) :
    findLicense (bindDevice store key dev) key =
      Option.map (fun r => { r with used_on_device := some dev })
        (findLicense store key) := by
  induction store with
  | nil => rfl
  | cons r t ih =>
    obtain ⟨k0, rv, vd, cd, ud, isd⟩ := r
    unfold findLicense bindDevice at ih ⊢
    rw [List.map_cons]
    by_cases hrk : (k0 == key) = true
    · simp only [find?_lic_cons, hrk, if_pos]
      simp [hrk]
    · simp only [find?_lic_cons, hrk]
      simp only [Bool.false_eq_true, if_false]
      simpa [hrk] using ih

/-- C3, counterexample: two requests A (`dev1`) and B (`dev2`) race on the
same never-used key under the interleaving
A-read, B-read, A-finish, B-finish.  Both requests read the unbound
record, so each takes the first-use branch and performs its unconditional
`UPDATE`: BOTH calls are granted, nobody receives `DeviceMismatch`, and
the write by B overwrites the write by A, so the binding made by A is lost and the record ends
bound to `dev2`. -/
theorem race_double_grant :
    (runRace ([mkLicense "K" 30 0] : Store) "K" "dev1" "dev2" 0
        [true, false, true, false]).aRes = some VResult.valid ∧
    (runRace ([mkLicense "K" 30 0] : Store) "K" "dev1" "dev2" 0
        [true, false, true, false]).bRes = some VResult.valid ∧
    (runRace ([mkLicense "K" 30 0] : Store) "K" "dev1" "dev2" 0
        [true, false, true, false]).store =
      ([{ mkLicense "K" 30 0 with used_on_device := some "dev2" }] : Store) := by
  decide

/-- C3, amended: the exactly-one-grant outcome holds only when the two
requests execute serially: if the first call completes before the second
starts, the first is granted and binds the record to its device, and the
second returns `DeviceMismatch` without modifying the store.  (Under
interleavings where both reads precede the writes, both requests are
granted and one binding is lost, as the unconditional `UPDATE` is not a
compare-and-swap.) -/
theorem serial_validate_one_grant_one_mismatch
    (store : Store) (key d1 d2 : String) (now : Int) (r : LicenseRecord)
    (hk : key ≠ "") (h1 : d1 ≠ "") (h2 : d2 ≠ "") (hne : d1 ≠ d2)
    (hfind : findLicense store key = some r)
    (hrev : r.revoked = false) (hub : r.used_on_device = none)
    (hexp : ¬ now > r.creation_date + r.valid_for_days) :
    validate_license store key d1 now = (VResult.valid, bindDevice store key d1) ∧
    validate_license (bindDevice store key d1) key d2 now =
      (VResult.deviceMismatch, bindDevice store key d1) := by
  constructor
  · rw [validate_of_found store key d1 now hk h1, hfind]
    simp [reqFinish, hrev, hub, mismatchCond, truthyStr, if_neg hexp]
  · rw [validate_of_found _ key d2 now hk h2, findLicense_bindDevice, hfind]
    simp [reqFinish, hrev, mismatchCond, truthyStr, bne_iff_ne, h1, hne]

/-- C3, witness for the amended theorem: serial execution on a concrete
one-record store grants `dev1` and rejects `dev2` with `DeviceMismatch`. -/
theorem serial_validate_one_grant_one_mismatch_witness :
    validate_license ([mkLicense "K" 30 0] : Store) "K" "dev1" 5 =
      (VResult.valid, bindDevice ([mkLicense "K" 30 0] : Store) "K" "dev1") ∧
    validate_license (bindDevice ([mkLicense "K" 30 0] : Store) "K" "dev1")
        "K" "dev2" 5 =
      (VResult.deviceMismatch, bindDevice ([mkLicense "K" 30 0] : Store) "K" "dev1") :=
  serial_validate_one_grant_one_mismatch ([mkLicense "K" 30 0] : Store)
    "K" "dev1" "dev2" 5 (mkLicense "K" 30 0) (by decide) (by decide) (by decide)
    (by decide) (by decide) (by decide) (by decide) (by decide)

theorem issuance_of_mem_map (g : LicenseRecord → LicenseRecord)
    (hg : ∀ x, (g x).issuance_date = x.issuance_date)
    (s : Store) (hs : ∀ x ∈ s, x.issuance_date = none) :
    ∀ r ∈ List.map g s, r.issuance_date = none := by
  intro r hr
  obtain ⟨x, hx, rfl⟩ := List.mem_map.mp hr
  rw [hg]
  exact hs x hx

theorem validate_store_cases (s : Store) (key device_id : String) (now : Int) :
    (validate_license s key device_id now).2 = s ∨
    (validate_license s key device_id now).2 = bindDevice s key device_id := by
  unfold validate_license
  split
  · exact Or.inl rfl
  · unfold reqFinish
    cases findLicense s key with
    | none => exact Or.inl rfl
    | some r =>
      dsimp only
      split_ifs <;> simp

theorem add_key_store_cases (s : Store) (key : String) (days now : Int) :
    (add_key s key days now).2 = s ∨
    (add_key s key days now).2 = s ++ ([mkLicense key days now] : Store) := by
  unfold add_key insert_license
  by_cases h : List.any s (fun r => r.key == key) = true
  · rw [if_pos h]
    exact Or.inl rfl
  · rw [if_neg h]
    exact Or.inr rfl

theorem foldl_insert_issuance (days now : Int) :
    ∀ (keys : List String) (s : Store), (∀ r ∈ s, r.issuance_date = none) →
      ∀ r ∈ List.foldl
          (fun s k =>
            if List.any s (fun r2 => r2.key == k) then s
            else s ++ ([mkLicense k days now] : Store)) s keys,
        r.issuance_date = none := by
  intro keys
  induction keys with
  | nil =>
    intro s hs
    simpa using hs
  | cons k ks ih =>
    intro s hs
    rw [List.foldl_cons]
    apply ih
    by_cases h : List.any s (fun r2 => r2.key == k) = true
    · rw [if_pos h]
      exact hs
    · rw [if_neg h]
      intro r hr
      rcases List.mem_append.mp hr with h1 | h1
      · exact hs r h1
      · rw [List.mem_singleton.mp h1]
        rfl

theorem generate_keys_shape (store : Store) (quantity : Nat) (days now : Int)
    (f : Nat → Fin 36) (fuel : Nat) (resp : AdminResp) (s2 : Store)
    (h : generate_keys store quantity days now f fuel = some (resp, s2)) :
    ∃ keys : List String,
      genLoop store f fuel quantity 0 [] = some keys ∧
      s2 = store ++ (List.map (fun k => mkLicense k days now) keys : Store) := by
  unfold generate_keys at h
  cases hg : genLoop store f fuel quantity 0 [] with
  | none =>
    rw [hg] at h
    exact absurd h (by simp)
  | some keys =>
    rw [hg] at h
    by_cases hk : keys = []
    · subst hk
      simp at h
      exact ⟨[], rfl, by rw [← h.2]; simp⟩
    · simp [hk] at h
      exact ⟨keys, rfl, h.2.symm⟩

/-- C4, counterexample: the store holding `"K"` bound to `"dev1"` is
reachable (create it, then validate once), and in it `boundDeviceId`
(`used_on_device`) is present while `issuanceDate` is absent — the
binding `UPDATE` sets only `used_on_device`, so the claimed equivalence
fails. -/
theorem bound_record_without_issuance_reachable :
    Reachable ([{ mkLicense "K" 30 0 with used_on_device := some "dev1" }] : Store) ∧
    ({ mkLicense "K" 30 0 with used_on_device := some "dev1" } : LicenseRecord).used_on_device ≠
      none ∧
    ({ mkLicense "K" 30 0 with used_on_device := some "dev1" } : LicenseRecord).issuance_date =
      none := by
  refine ⟨?_, by decide, rfl⟩
  have h2 : (validate_license (add_key ({} : Store) "K" 30 0).2 "K" "dev1" 0).2 =
      ([{ mkLicense "K" 30 0 with used_on_device := some "dev1" }] : Store) := by
    decide
  exact h2 ▸
    Reachable.validate _ "K" "dev1" 0 (Reachable.add _ "K" 30 0 Reachable.init)

/-- C4, amended: in every reachable store state, `issuanceDate` is absent
from every record — no operation of the application ever writes it, and
the binding transition sets only `boundDeviceId` (`used_on_device`).  In
particular the claimed equivalence holds only in the trivial direction:
a bound record has `used_on_device` present and `issuance_date` absent. -/
theorem reachable_issuance_absent (s : Store) (hs : Reachable s) :
    ∀ r ∈ s, r.issuance_date = none := by
  induction hs with
  | init =>
    intro r hr
    simp at hr
  | validate s key device_id now _ ih =>
    rcases validate_store_cases s key device_id now with h | h
    · rw [h]
      exact ih
    · rw [h]
      refine issuance_of_mem_map _ (fun x => ?_) s ih
      by_cases hx : (x.key == key) = true
      · rw [if_pos hx]
      · rw [if_neg hx]
  | add s key days now _ ih =>
    rcases add_key_store_cases s key days now with h | h
    · rw [h]
      exact ih
    · rw [h]
      intro r hr
      rcases List.mem_append.mp hr with h1 | h1
      · exact ih r h1
      · rw [List.mem_singleton.mp h1]
        rfl
  | revoke s key _ ih =>
    refine issuance_of_mem_map _ (fun x => ?_) s ih
    by_cases hx : (x.key == key) = true
    · rw [if_pos hx]
    · rw [if_neg hx]
  | reinstate s key _ ih =>
    refine issuance_of_mem_map _ (fun x => ?_) s ih
    by_cases hx : (x.key == key) = true
    · rw [if_pos hx]
    · rw [if_neg hx]
  | modify s key days _ ih =>
    refine issuance_of_mem_map _ (fun x => ?_) s ih
    by_cases hx : (x.key == key) = true
    · rw [if_pos hx]
    · rw [if_neg hx]
  | massAdd s keys days now _ ih =>
    exact foldl_insert_issuance days now keys s ih
  | generate s s2 quantity days now f fuel resp _ hgen ih =>
    obtain ⟨keys, _, hshape⟩ :=
      generate_keys_shape s quantity days now f fuel resp s2 hgen
    rw [hshape]
    intro r hr
    rcases List.mem_append.mp hr with h1 | h1
    · exact ih r h1
    · obtain ⟨k, _, rfl⟩ := List.mem_map.mp h1
      rfl

/-- C4, witness for the amended theorem: applied to the reachable store
produced by a single `add_key`, it yields that the stored record has no
`issuance_date`. -/
theorem reachable_issuance_absent_witness :
    (mkLicense "K" 30 0).issuance_date = none :=
  reachable_issuance_absent (add_key ({} : Store) "K" 30 0).2
    (Reachable.add ({} : Store) "K" 30 0 Reachable.init)
    (mkLicense "K" 30 0) (by decide)

/-- C5, confirmed: whenever validation denies (bad request, not found,
revoked, device mismatch, or expired), the store after the call equals
the store before, and whenever the call changes the store, the call was
the single granted first-use binding: the fetched record exists, its
`used_on_device` was falsy, and the new store is exactly the bind
update. -/
theorem denial_preserves_store (store : Store) (key device_id : String) (now : Int) :
    ((validate_license store key device_id now).1 ≠ VResult.valid →
      (validate_license store key device_id now).2 = store) ∧
    ((validate_license store key device_id now).2 ≠ store →
      (validate_license store key device_id now).1 = VResult.valid ∧
      ∃ r, findLicense store key = some r ∧ truthyStr r.used_on_device = false ∧
        (validate_license store key device_id now).2 =
          bindDevice store key device_id) := by
  by_cases hg : (key == "" || device_id == "") = true
  · simp [validate_license, hg]
  · cases hf : findLicense store key with
    | none => simp [validate_license, hg, hf, reqFinish]
    | some r =>
      simp only [validate_license, hg, Bool.false_eq_true, if_false, hf, reqFinish]
      split_ifs with h1 h2 h3 h4
      · simp
      · simp
      · simp
      · refine ⟨fun hcontra => absurd rfl hcontra, fun _ => ⟨rfl, r, rfl, ?_, rfl⟩⟩
        simpa using h4
      · simp

/-- C5, witness: an expired denial on a concrete store leaves the store
unchanged. -/
theorem denial_preserves_store_witness :
    (validate_license ([mkLicense "K" 1 0] : Store) "K" "dev9" 100).2 =
      ([mkLicense "K" 1 0] : Store) :=
  (denial_preserves_store ([mkLicense "K" 1 0] : Store) "K" "dev9" 100).1
    (by decide)

/-- C6, counterexample: adding a key that already exists does NOT fail
with a `Conflict` response — the route answers the very same
`302` redirect to `/admin` as a successful insert (the database error is
caught and swallowed), though the store is indeed left unchanged. -/
theorem duplicate_add_key_redirects_like_success :
    add_key ([mkLicense "K" 30 0] : Store) "K" 7 5 =
      (redirectAdmin, ([mkLicense "K" 30 0] : Store)) ∧
    (add_key ([] : Store) "K" 7 5).1 = redirectAdmin ∧
    redirectAdmin.1 = 302 ∧ redirectAdmin.1 ≠ 409 := by
  decide

/-- C6, amended: when the key already exists the underlying insert fails
with a unique violation and is rolled back, leaving the store unchanged —
but the endpoint replies with the same redirect as on success, so no
`Conflict` is surfaced to the caller; when the key is fresh, a record is
inserted with `revoked = false`, no binding, and `creationDate = now`. -/
theorem add_key_behavior (store : Store) (key : String) (days now : Int) :
    (List.any store (fun r => r.key == key) = true →
      insert_license store key days now = Except.error () ∧
      add_key store key days now = (redirectAdmin, store)) ∧
    (List.any store (fun r => r.key == key) = false →
      add_key store key days now =
        (redirectAdmin, store ++ ([mkLicense key days now] : Store)) ∧
      (mkLicense key days now).revoked = false ∧
      (mkLicense key days now).used_on_device = none ∧
      (mkLicense key days now).creation_date = now) := by
  constructor
  · intro h
    unfold add_key insert_license
    rw [if_pos h]
    exact ⟨rfl, rfl⟩
  · intro h
    unfold add_key insert_license
    rw [if_neg (by simp [h])]
    exact ⟨rfl, rfl, rfl, rfl⟩

/-- C6, witness: inserting a fresh key into the empty store appends the
default record. -/
theorem add_key_behavior_witness :
    add_key ([] : Store) "FRESH" 3 9 =
      (redirectAdmin, ([] : Store) ++ ([mkLicense "FRESH" 3 9] : Store)) :=
  ((add_key_behavior ([] : Store) "FRESH" 3 9).2 (by decide)).1

/-- C7, counterexample: revoking or reinstating a key that is absent from
the store does NOT fail with `NotFound` — both routes run an `UPDATE`
matching zero rows and reply with the same `302` redirect to `/admin` as on
success, leaving the store unchanged. -/
theorem revoke_absent_key_redirects :
    revoke_key ([] : Store) "K" = (redirectAdmin, ([] : Store)) ∧
    reinstate_key ([] : Store) "K" = (redirectAdmin, ([] : Store)) ∧
    redirectAdmin.1 = 302 ∧ redirectAdmin.1 ≠ 404 := by
  decide

theorem map_update_of_absent (g : LicenseRecord → LicenseRecord) (key : String)
    (s : Store) (habs : ∀ r ∈ s, r.key ≠ key) :
    List.map (fun r => if r.key == key then g r else r) s = s := by
  induction s with
  | nil => rfl
  | cons r t ih =>
    rw [List.map_cons]
    rw [if_neg (by simpa using habs r (List.mem_cons_self r t))]
    rw [ih (fun x hx => habs x (List.mem_cons_of_mem r hx))]

/-- C7, amended: `revoke_key` and `reinstate_key` always answer the same
redirect — an absent key is a silent no-op success, not a `NotFound`
failure; when rows match, `revoked` is set to `true` (resp. `false`),
rows with other keys are untouched, and both operations are
idempotent. -/
theorem revoke_reinstate_behavior (store : Store) (key : String) :
    (revoke_key store key).1 = redirectAdmin ∧
    (reinstate_key store key).1 = redirectAdmin ∧
    ((∀ r ∈ store, r.key ≠ key) →
      (revoke_key store key).2 = store ∧ (reinstate_key store key).2 = store) ∧
    (∀ r ∈ (revoke_key store key).2, r.key = key → r.revoked = true) ∧
    (∀ r ∈ (reinstate_key store key).2, r.key = key → r.revoked = false) ∧
    (revoke_key (revoke_key store key).2 key).2 = (revoke_key store key).2 ∧
    (reinstate_key (reinstate_key store key).2 key).2 =
      (reinstate_key store key).2 := by
  refine ⟨rfl, rfl, fun habs => ⟨map_update_of_absent _ key store habs,
    map_update_of_absent _ key store habs⟩, ?_, ?_, ?_, ?_⟩
  · intro r hr hkey
    obtain ⟨x, hx, rfl⟩ := List.mem_map.mp hr
    by_cases h : (x.key == key) = true
    · simp [h]
    · rw [if_neg h]
      rw [if_neg h] at hkey
      exact absurd hkey (by simpa using h)
  · intro r hr hkey
    obtain ⟨x, hx, rfl⟩ := List.mem_map.mp hr
    by_cases h : (x.key == key) = true
    · simp [h]
    · rw [if_neg h]
      rw [if_neg h] at hkey
      exact absurd hkey (by simpa using h)
  · show List.map _ (List.map _ store) = List.map _ store
    rw [List.map_map]
    refine List.map_congr_left fun x _ => ?_
    by_cases h : (x.key == key) = true
    · simp [Function.comp, h]
    · simp [Function.comp, h]
  · show List.map _ (List.map _ store) = List.map _ store
    rw [List.map_map]
    refine List.map_congr_left fun x _ => ?_
    by_cases h : (x.key == key) = true
    · simp [Function.comp, h]
    · simp [Function.comp, h]

/-- C7, witness: revoking a present key marks that record revoked, and
revoking an absent key is a no-op. -/
theorem revoke_reinstate_behavior_witness :
    (∀ r ∈ (revoke_key ([mkLicense "K" 30 0] : Store) "K").2,
      r.key = "K" → r.revoked = true) ∧
    (revoke_key ([mkLicense "K" 30 0] : Store) "ABSENT").2 =
      ([mkLicense "K" 30 0] : Store) :=
  ⟨(revoke_reinstate_behavior ([mkLicense "K" 30 0] : Store) "K").2.2.2.1,
    ((revoke_reinstate_behavior ([mkLicense "K" 30 0] : Store) "ABSENT").2.2.1
      (by decide)).1⟩

theorem generate_key_fresh (store : Store) (f : Nat → Fin 36) :
    ∀ (fuel pos : Nat) (k : String) (p2 : Nat),
      generate_key store f pos fuel = some (k, p2) →
      (∃ q, k = buildKey f q) ∧ ∀ r ∈ store, r.key ≠ k := by
  intro fuel
  induction fuel with
  | zero =>
    intro pos k p2 h
    exact absurd h (by simp [generate_key])
  | succ n ih =>
    intro pos k p2 h
    unfold generate_key at h
    by_cases hc : List.any store (fun r => r.key == buildKey f pos) = true
    · rw [if_pos hc] at h
      exact ih (pos + 12) k p2 h
    · rw [if_neg hc] at h
      simp only [Option.some_inj, Prod.mk.injEq] at h
      obtain ⟨hk, _⟩ := h
      subst hk
      refine ⟨⟨pos, rfl⟩, fun r hr hcontra => hc ?_⟩
      rw [List.any_eq_true]
      exact ⟨r, hr, by simp [hcontra]⟩

theorem genLoop_props (store : Store) (f : Nat → Fin 36) (fuel : Nat) :
    ∀ (q pos : Nat) (acc keys : List String),
      genLoop store f fuel q pos acc = some keys →
      acc.Nodup → (∀ k ∈ acc, ∀ r ∈ store, r.key ≠ k) →
      keys.Nodup ∧ keys.length ≤ acc.length + q ∧
        ∀ k ∈ keys, ∀ r ∈ store, r.key ≠ k := by
  intro q
  induction q with
  | zero =>
    intro pos acc keys h hnd habs
    unfold genLoop at h
    simp only [Option.some_inj] at h
    subst h
    exact ⟨hnd, by simp, habs⟩
  | succ n ih =>
    intro pos acc keys h hnd habs
    unfold genLoop at h
    cases hg : generate_key store f pos fuel with
    | none =>
      rw [hg] at h
      exact absurd h (by simp)
    | some kp =>
      obtain ⟨k, pos2⟩ := kp
      rw [hg] at h
      have hins := generate_key_fresh store f fuel pos k pos2 hg
      have hnd2 : (setInsert acc k).Nodup := by
        unfold setInsert
        by_cases hmem : k ∈ acc
        · rw [if_pos hmem]
          exact hnd
        · rw [if_neg hmem]
          simp [List.nodup_append, hnd, hmem]
      have habs2 : ∀ k2 ∈ setInsert acc k, ∀ r ∈ store, r.key ≠ k2 := by
        intro k2 hk2 r hr
        unfold setInsert at hk2
        by_cases hmem : k ∈ acc
        · rw [if_pos hmem] at hk2
          exact habs k2 hk2 r hr
        · rw [if_neg hmem] at hk2
          rcases List.mem_append.mp hk2 with h1 | h1
          · exact habs k2 h1 r hr
          · rw [List.mem_singleton.mp h1]
            exact hins.2 r hr
      have hlen : (setInsert acc k).length ≤ acc.length + 1 := by
        unfold setInsert
        by_cases hmem : k ∈ acc
        · rw [if_pos hmem]
          omega
        · rw [if_neg hmem]
          simp
      obtain ⟨a, b, c⟩ := ih pos2 (setInsert acc k) keys h hnd2 habs2
      exact ⟨a, by omega, c⟩

/-- C8, counterexample: with `quantity = 2` and a random stream that
produces the same candidate twice, `generate_key` accepts both draws
(each is absent from the store — it is only checked against the
database, not against the in-progress batch), the Python `set` collapses
them, and only ONE key is inserted instead of two. -/
theorem generate_keys_undercount :
    generate_keys ([] : Store) 2 30 0 (fun _ => 0) 3 =
      some (redirectAdmin, ([mkLicense "AAAA-AAAA-AAAA" 30 0] : Store)) ∧
    ([mkLicense "AAAA-AAAA-AAAA" 30 0] : Store).length = 1 := by
  decide

/-- C8, amended: the produced batch has no internal duplicates and every
key in it was absent from the store before insertion, but its size is
only AT MOST `count`: a candidate repeated within one batch is silently
deduplicated by the `set`, so fewer than `count` keys may be inserted. -/
theorem generate_keys_batch_properties (store : Store) (quantity : Nat)
    (days now : Int) (f : Nat → Fin 36) (fuel : Nat) (resp : AdminResp)
    (s2 : Store)
    (h : generate_keys store quantity days now f fuel = some (resp, s2)) :
    ∃ keys : List String,
      s2 = store ++ (List.map (fun k => mkLicense k days now) keys : Store) ∧
      keys.Nodup ∧ keys.length ≤ quantity ∧
      ∀ k ∈ keys, ∀ r ∈ store, r.key ≠ k := by
  obtain ⟨keys, hloop, hshape⟩ :=
    generate_keys_shape store quantity days now f fuel resp s2 h
  obtain ⟨hnd, hlen, habs⟩ :=
    genLoop_props store f fuel quantity 0 [] keys hloop (by simp) (by simp)
  exact ⟨keys, hshape, hnd, by simpa using hlen, habs⟩

/-- C8, witness for the amended theorem: one generated key against the
empty store. -/
theorem generate_keys_batch_properties_witness :
    ∃ keys : List String,
      ([mkLicense "AAAA-AAAA-AAAA" 30 0] : Store) =
        ([] : Store) ++ (List.map (fun k => mkLicense k 30 0) keys : Store) ∧
      keys.Nodup ∧ keys.length ≤ 1 ∧
      ∀ k ∈ keys, ∀ r ∈ ([] : Store), r.key ≠ k :=
  generate_keys_batch_properties ([] : Store) 1 30 0 (fun _ => 0) 2
    redirectAdmin ([mkLicense "AAAA-AAAA-AAAA" 30 0] : Store) (by decide)

/-- C9, confirmed: validating a key that is already bound to the calling
device — record present, not revoked, within the validity window —
grants, writes nothing, and is idempotent: the second call returns the
same grant on the same store. -/
theorem bound_device_validate_idempotent
    (store : Store) (key dev : String) (now : Int) (r : LicenseRecord)
    (hk : key ≠ "") (hd : dev ≠ "")
    (hfind : findLicense store key = some r)
    (hbound : r.used_on_device = some dev)
    (hrev : r.revoked = false)
    (hexp : ¬ now > r.creation_date + r.valid_for_days) :
    validate_license store key dev now = (VResult.valid, store) ∧
    validate_license (validate_license store key dev now).2 key dev now =
      (VResult.valid, store) := by
  have h1 : validate_license store key dev now = (VResult.valid, store) := by
    rw [validate_of_found store key dev now hk hd, hfind]
    have hmm : mismatchCond r dev = false := by
      simp [mismatchCond, hbound]
    have hbind : (!truthyStr r.used_on_device) = false := by
      simp [truthyStr, hbound, hd]
    simp only [reqFinish, hrev, hmm, hbind, Bool.false_eq_true, if_false,
      if_neg hexp]
  refine ⟨h1, ?_⟩
  rw [h1]
  exact h1

/-- C9, witness: a concrete store bound to `dev1`, validated twice by
`dev1` inside the window. -/
theorem bound_device_validate_idempotent_witness :
    validate_license
        ([{ mkLicense "K" 30 0 with used_on_device := some "dev1" }] : Store)
        "K" "dev1" 7 =
      (VResult.valid,
        ([{ mkLicense "K" 30 0 with used_on_device := some "dev1" }] : Store)) ∧
    validate_license
        (validate_license
            ([{ mkLicense "K" 30 0 with used_on_device := some "dev1" }] : Store)
            "K" "dev1" 7).2 "K" "dev1" 7 =
      (VResult.valid,
        ([{ mkLicense "K" 30 0 with used_on_device := some "dev1" }] : Store)) :=
  bound_device_validate_idempotent
    ([{ mkLicense "K" 30 0 with used_on_device := some "dev1" }] : Store)
    "K" "dev1" 7 { mkLicense "K" 30 0 with used_on_device := some "dev1" }
    (by decide) (by decide) (by decide) (by decide) (by decide) (by decide)

theorem keyChar_mem (f : Nat → Fin 36) (n : Nat) : keyChar f n ∈ keyAlphabet :=
  List.get_mem keyAlphabet (f n).val (f n).isLt

theorem buildKey_format (f : Nat → Fin 36) (pos : Nat) :
    isValidKeyFormat (buildKey f pos) ∧ (buildKey f pos).length = 14 := by
  have hr4 : List.range 4 = [0, 1, 2, 3] := rfl
  have hdata : (buildKey f pos).data =
      [keyChar f (pos + 0), keyChar f (pos + 1), keyChar f (pos + 2),
        keyChar f (pos + 3), '-',
        keyChar f (pos + 4 + 0), keyChar f (pos + 4 + 1),
        keyChar f (pos + 4 + 2), keyChar f (pos + 4 + 3), '-',
        keyChar f (pos + 8 + 0), keyChar f (pos + 8 + 1),
        keyChar f (pos + 8 + 2), keyChar f (pos + 8 + 3)] := by
    simp [buildKey, keyPart, hr4]
  constructor
  · unfold isValidKeyFormat
    rw [hdata]
    refine ⟨rfl, rfl, ?_⟩
    intro x hx
    simp only [List.mem_cons, List.not_mem_nil, or_false] at hx
    rcases hx with rfl | rfl | rfl | rfl | rfl | rfl | rfl | rfl | rfl | rfl | rfl | rfl
    all_goals exact keyChar_mem f _
  · show (buildKey f pos).data.length = 14
    rw [hdata]
    rfl

/-- C10, confirmed: every key returned by `generate_key` has the shape
`XXXX-XXXX-XXXX` — three groups of four characters joined by `'-'`,
14 characters in total, every non-dash character drawn from the
uppercase letters and digits. -/
theorem generated_key_format (store : Store) (f : Nat → Fin 36)
    (fuel pos : Nat) (k : String) (p2 : Nat)
    (h : generate_key store f pos fuel = some (k, p2)) :
    isValidKeyFormat k ∧ k.length = 14 := by
  obtain ⟨⟨q, rfl⟩, _⟩ := generate_key_fresh store f fuel pos k p2 h
  exact buildKey_format f q

/-- C10, witness: the key generated from the constant-stream source. -/
theorem generated_key_format_witness :
    isValidKeyFormat "AAAA-AAAA-AAAA" ∧ ("AAAA-AAAA-AAAA" : String).length = 14 :=
  generated_key_format ([] : Store) (fun _ => 0) 1 0 "AAAA-AAAA-AAAA" 12
    (by decide)
